import Mathlib

/-!
Shallow embedding of `src/script.js` (portfolio page interactivity) and proofs
about its behavior.

The script is single-threaded and event-driven; every module is modelled as a
pure step function on an explicit state, with browser callbacks (observer
callbacks, timer ticks, animation-frame firings, resize events) as an explicit
event alphabet.  Machine numbers are modelled as `ℚ` (all constants involved
are exactly representable and no float rounding is relevant to any claim);
`Math.random()` values enter as explicit parameters constrained to `[0, 1)`.
-/

namespace Portfolio

/-- Model of `Math.abs` on the rationals. -/
def ratAbs (q : ℚ) : ℚ := if q < 0 then -q else q

/- ## Hero module (`initHeroModule`): video-time driven text sequencer -/

/-- State captured by the `onTimeUpdate` closure in `initHeroModule`:
the `lastTimeChecked` sample and the `playing` flag. -/
structure HeroState where
  lastTimeChecked : ℚ
  playing : Bool
deriving DecidableEq

/-- Observable actions of the hero sequencer: `playSequence()` being invoked
(start of the two-text reveal) and `resetTexts()` being invoked. -/
inductive HeroEvent where
  | seqStart
  | resetTexts
deriving DecidableEq

/-- Constant `CAR_ARRIVAL` from `initHeroModule`. -/
def CAR_ARRIVAL : ℚ := 2

/-- Constant `CAR_LEAVE` from `initHeroModule`. -/
def CAR_LEAVE : ℚ := 6

/-- Body of the throttled `timeupdate` handler in `initHeroModule`.
A sample whose distance to `lastTimeChecked` is below `0.1` returns early;
otherwise `lastTimeChecked` is updated, a sample inside `[CAR_ARRIVAL, CAR_LEAVE)`
with `playing` unset sets the flag and plays the sequence, and a sample outside
the window clears the flag and resets the texts. -/
def onTimeUpdate (s : HeroState) (current : ℚ) : HeroState × List HeroEvent :=
  if ratAbs (current - s.lastTimeChecked) < 1/10 then (s, [])
  else
    let s1 : HeroState := { s with lastTimeChecked := current }
    if CAR_ARRIVAL ≤ current ∧ current < CAR_LEAVE ∧ s1.playing = false then
      ({ s1 with playing := true }, [HeroEvent.seqStart])
    else if CAR_LEAVE ≤ current ∨ current < CAR_ARRIVAL then
      ({ s1 with playing := false }, [HeroEvent.resetTexts])
    else
      (s1, [])

/-- Initial sequencer state: `lastTimeChecked = -1`, `playing = false`. -/
def heroInit : HeroState := { lastTimeChecked := -1, playing := false }

/-- Process a list of sampled video times, accumulating emitted events. -/
def runHero (samples : List ℚ) : HeroState × List HeroEvent :=
  samples.foldl
    (fun acc current =>
      let r := onTimeUpdate acc.1 current
      (r.1, acc.2 ++ r.2))
    (heroInit, [])

/-- Number of sequence starts produced by a sample list. -/
def countStarts (samples : List ℚ) : ℕ :=
  (runHero samples).2.count HeroEvent.seqStart

/-- Number of `true → false` transitions of the `playing` flag along a sample list. -/
def countTrueToFalse (samples : List ℚ) : ℕ :=
  (samples.foldl
    (fun (acc : HeroState × ℕ) current =>
      let s2 := (onTimeUpdate acc.1 current).1
      (s2, acc.2 + (if acc.1.playing = true ∧ s2.playing = false then 1 else 0)))
    (heroInit, 0)).2

/-- Per-sample contract of the sequencer, used by the C4 claim: a non-skipped
in-window sample with the flag clear starts the sequence and sets the flag,
an in-window sample with the flag set does nothing further, and an
out-of-window sample clears the flag and resets the texts. -/
def heroStepSpec (s : HeroState) (c : ℚ) : Prop :=
  (CAR_ARRIVAL ≤ c ∧ c < CAR_LEAVE ∧ s.playing = false →
    onTimeUpdate s c = ({ lastTimeChecked := c, playing := true }, [HeroEvent.seqStart]))
  ∧ (CAR_ARRIVAL ≤ c ∧ c < CAR_LEAVE ∧ s.playing = true →
    onTimeUpdate s c = ({ lastTimeChecked := c, playing := true }, []))
  ∧ (CAR_LEAVE ≤ c ∨ c < CAR_ARRIVAL →
    onTimeUpdate s c = ({ lastTimeChecked := c, playing := false }, [HeroEvent.resetTexts]))

/- ## Contact form submit handler -/

/-- Status message set before the fetch. -/
def SENDING_MSG : String := "Sending..."

/-- Status message for `response.ok`. -/
def SUCCESS_MSG : String := "âœ… Message sent successfully!"

/-- Status message for a resolved but non-ok response. -/
def HTTP_FAIL_MSG : String := "âŒ Something went wrong. Try again."

/-- Status message for a rejected fetch (transport failure). -/
def NETWORK_FAIL_MSG : String := "âš ï¸ Network error. Please try again."

/-- Possible resolutions of the single `fetch` call in the submit handler. -/
inductive FetchOutcome where
  | ok
  | httpErr
  | netErr
deriving DecidableEq

/-- Observable DOM state touched by the submit handler: the `.form-status`
text, the form fields (abstracted to one string), and whether the
3-second status-clearing timeout is scheduled. -/
structure FormDom where
  statusText : String
  fields : String
  clearTimerScheduled : Bool
deriving DecidableEq

/-- Result of one submit: the DOM state after the handler settles, the number
of network attempts made, whether default navigation was prevented, and the
status text that was displayed while the fetch was in flight. -/
structure SubmitResult where
  dom : FormDom
  fetchAttempts : ℕ
  preventedDefault : Bool
  statusDuringFetch : String
deriving DecidableEq

/-- The `submit` listener on `.contact-form`: prevent default, show
`Sending...`, fetch once, then branch on the outcome exactly as the
`response.ok` / `else` / `catch` structure of the source does. -/
def formSubmitHandler (outcome : FetchOutcome) (d : FormDom) : SubmitResult :=
  let d1 : FormDom := { d with statusText := SENDING_MSG }
  match outcome with
  | FetchOutcome.ok =>
      { dom := { d1 with statusText := SUCCESS_MSG, fields := "", clearTimerScheduled := true },
        fetchAttempts := 1, preventedDefault := true, statusDuringFetch := d1.statusText }
  | FetchOutcome.httpErr =>
      { dom := { d1 with statusText := HTTP_FAIL_MSG },
        fetchAttempts := 1, preventedDefault := true, statusDuringFetch := d1.statusText }
  | FetchOutcome.netErr =>
      { dom := { d1 with statusText := NETWORK_FAIL_MSG },
        fetchAttempts := 1, preventedDefault := true, statusDuringFetch := d1.statusText }

/-- Firing of the `setTimeout(() => status.textContent = '', 3000)` timer. -/
def statusClearTimer (d : FormDom) : FormDom :=
  if d.clearTimerScheduled then { d with statusText := "", clearTimerScheduled := false } else d

/- ## Particle and wheel reinitialization (`initParticlesModule` / `initWheels`) -/

/-- A dust particle of `initParticlesModule`. -/
structure DustParticle where
  x : ℚ
  y : ℚ
  size : ℚ
  speedY : ℚ
deriving DecidableEq

/-- `Dust.reset()`: fresh position and parameters from four random draws
(`x = r·w`, `y = r·h`, `size = r·2 + 1`, `speedY = r·0.5 + 0.15`). -/
def dustReset (w h r1 r2 r3 r4 : ℚ) : DustParticle :=
  { x := r1 * w, y := r2 * h, size := r3 * 2 + 1, speedY := r4 * (1/2) + 3/20 }

/-- A car-emoji particle of `initParticlesModule`. -/
structure CarEmojiParticle where
  x : ℚ
  y : ℚ
  size : ℚ
  speedY : ℚ
  floatX : ℚ
  floatSpeed : ℚ
deriving DecidableEq

/-- `CarParticle.reset()`: fresh position and parameters from six random draws. -/
def carParticleReset (w h r1 r2 r3 r4 r5 r6 : ℚ) : CarEmojiParticle :=
  { x := r1 * w, y := r2 * h, size := 18 + r3 * 8, speedY := r4 * (7/20) + 3/25,
    floatX := r5 * 50, floatSpeed := r6 * (1/50) + 1/100 }

/-- Starting coordinate of a floating wheel along one axis in `initWheels`:
`Math.random() * Math.max(100, extent - 100)`. -/
def wheelStart (extent r : ℚ) : ℚ := r * max 100 (extent - 100)

/-- The `init()` loop of `initParticlesModule` for dust: `n` particles, each
built by `Dust.reset` from the random stream `rnd`. -/
def initDust (w h : ℚ) (n : ℕ) (rnd : ℕ → ℚ) : List DustParticle :=
  (List.range n).map
    (fun k => dustReset w h (rnd (4*k)) (rnd (4*k+1)) (rnd (4*k+2)) (rnd (4*k+3)))

/-- The `init()` loop of `initParticlesModule` for car emojis. -/
def initCars (w h : ℚ) (n : ℕ) (rnd : ℕ → ℚ) : List CarEmojiParticle :=
  (List.range n).map
    (fun k => carParticleReset w h (rnd (6*k)) (rnd (6*k+1)) (rnd (6*k+2)) (rnd (6*k+3))
      (rnd (6*k+4)) (rnd (6*k+5)))

/-- Starting positions produced by the `initWheels()` loop for a container of
size `w × h`. -/
def initWheelPositions (w h : ℚ) (n : ℕ) (rnd : ℕ → ℚ) : List (ℚ × ℚ) :=
  (List.range n).map (fun k => (wheelStart w (rnd (2*k)), wheelStart h (rnd (2*k+1))))

/-- Constant random stream used as the concrete failing draw for claim C8. -/
def nineTenthsStream : ℕ → ℚ := fun _ => 9/10

/-- Constant random stream used in concrete witnesses. -/
def halfStream : ℕ → ℚ := fun _ => 1/2

/- ## Roadmap module (`initRoadmapModule`) -/

/-- Link payload of a `DESCRIPTIONS` entry (`link.text` is the text content of
the appended anchor; `link.url` is its fragment target). -/
structure LinkData where
  text : List Char
  url : String
deriving DecidableEq

/-- One entry of the `DESCRIPTIONS` table. -/
structure DescData where
  text : List Char
  link : LinkData
deriving DecidableEq

/-- The `DESCRIPTIONS` lookup table of `initRoadmapModule`, keyed by the
lowercased pin label.  Texts are the literal string data of the source file. -/
def DESCRIPTIONS (label : String) : Option DescData :=
  if label = "about" then
    some { text := ("As a Frontend Developer and Web Designer, I love turning ideas into interactive, visually engaging websites. I craft experiences that connect creativity with technology.").toList,
           link := { text := ("Read more â†’").toList, url := "about" } }
  else if label = "skills" then
    some { text := ("Explore the core web technologies and frameworks I work with.").toList,
           link := { text := ("Explore skills â†’").toList, url := "skills" } }
  else if label = "projects" then
    some { text := ("Discover some of my featured web projects and creative work.").toList,
           link := { text := ("See projects â†’").toList, url := "projects" } }
  else if label = "tools" then
    some { text := ("Take a look at the tools that power my design and development workflow.").toList,
           link := { text := ("View tools â†’").toList, url := "tools" } }
  else if label = "contact" then
    some { text := ("Letâ€™s connect and collaborate on something amazing together.").toList,
           link := { text := ("Contact me â†’").toList, url := "contact" } }
  else none

/-- An in-flight typewriter interval of the roadmap description surface:
the captured `full` text, the link text appended on completion, and the
mutable index `i` of the `setInterval` closure. -/
structure RmSession where
  full : List Char
  linkText : List Char
  i : ℕ
deriving DecidableEq

/-- State of `initRoadmapModule`.  `actives` is the set of live
`setInterval` handles together with their closure state (the browser's view);
`typingInterval` is the module's `typingInterval` variable; `display` is the
text content of `#descText`; `carPos` the car's rounded `translateX`. -/
structure RoadmapState where
  nextId : ℕ
  actives : List (ℕ × RmSession)
  typingInterval : Option ℕ
  activePin : ℕ
  isMoving : Bool
  display : List Char
  carPos : ℤ
deriving DecidableEq

/-- Geometry read from the DOM by the roadmap module: the horizontal center of
each pin relative to the road (`centerOfPin`), the car width, and the road's
client width. -/
structure RoadGeom where
  pinCenter : ℕ → ℚ
  carWidth : ℚ
  roadWidth : ℚ

/-- Model of `Math.round`: round half up. -/
def jsRound (q : ℚ) : ℤ := ⌊q + 1/2⌋

/-- The `clearTyping()` helper: clear the interval held in `typingInterval`
(if any) and null the variable. -/
def clearTyping (s : RoadmapState) : RoadmapState :=
  match s.typingInterval with
  | some id => { s with actives := s.actives.filter (fun p => p.1 != id), typingInterval := none }
  | none => s

/-- The `showDescriptionForPin(pin)` function.  `pins` holds each pin's label
text already trimmed and lowercased, exactly as the handler computes it.  An
unknown label returns before anything is touched; a known label cancels any
running interval, empties the surface, and starts a fresh interval at index 0. -/
def showDescriptionForPin (pins : List String) (idx : ℕ) (s : RoadmapState) : RoadmapState :=
  match DESCRIPTIONS (pins.getD idx "") with
  | none => s
  | some data =>
      let s1 := clearTyping s
      let s2 := { s1 with display := ([] : List Char) }
      { s2 with
        actives := (s2.nextId, { full := data.text, linkText := data.link.text, i := 0 })
          :: s2.actives,
        typingInterval := some s2.nextId,
        nextId := s2.nextId + 1 }

/-- One firing of a roadmap typing interval with handle `id`: write the prefix
`full.take (i+1)`, increment the closure's `i`, and on completion clear the
interval via `clearTyping()` and append the link text. -/
def rmTick (id : ℕ) (s : RoadmapState) : RoadmapState :=
  match s.actives.find? (fun p => p.1 == id) with
  | none => s
  | some (id0, t) =>
      let shown := t.full.take (t.i + 1)
      let i2 := t.i + 1
      if t.full.length ≤ i2 then
        let s1 := clearTyping s
        { s1 with
          actives := s1.actives.map (fun p => if p.1 == id0 then (p.1, { t with i := i2 }) else p),
          display := shown ++ ' ' :: t.linkText }
      else
        { s with
          actives := s.actives.map (fun p => if p.1 == id0 then (p.1, { t with i := i2 }) else p),
          display := shown }

/-- The `moveCarTo(pin)` function: a no-op while `isMoving` is held, otherwise
set the guard and move the car to the clamped centered target. -/
def moveCarTo (g : RoadGeom) (idx : ℕ) (s : RoadmapState) : RoadmapState :=
  if s.isMoving then s
  else
    let maxX := max 0 (g.roadWidth - g.carWidth)
    let target := max 0 (min (g.pinCenter idx - g.carWidth / 2) maxX)
    { s with isMoving := true, carPos := jsRound target }

/-- The pin `click` listener: nothing happens when the pin is already active;
otherwise the active pin switches, the car move is requested, and the
description reveal starts. -/
def clickPin (pins : List String) (g : RoadGeom) (idx : ℕ) (s : RoadmapState) : RoadmapState :=
  if s.activePin = idx then s
  else
    let s1 := { s with activePin := idx }
    let s2 := moveCarTo g idx s1
    showDescriptionForPin pins idx s2

/-- The `initCarPosition()` helper: snap the car onto the active pin with no
transition (also the debounced resize handler). -/
def initCarPosition (g : RoadGeom) (s : RoadmapState) : RoadmapState :=
  { s with carPos := jsRound (g.pinCenter s.activePin - g.carWidth / 2) }

/-- Events delivered to the roadmap module: pin clicks, interval firings,
the car's `transitionend`, debounced resizes, and `pagehide`. -/
inductive RmEv where
  | click (idx : ℕ)
  | tick (id : ℕ)
  | transitionEnd
  | resize
  | pagehide

/-- Dispatch one roadmap event. -/
def rmApply (pins : List String) (g : RoadGeom) (s : RoadmapState) : RmEv → RoadmapState
  | RmEv.click idx => clickPin pins g idx s
  | RmEv.tick id => rmTick id s
  | RmEv.transitionEnd => { s with isMoving := false }
  | RmEv.resize => initCarPosition g s
  | RmEv.pagehide => clearTyping s

/-- Module initialization: `initCarPosition()` followed by
`showDescriptionForPin(activePin)` with `activePin = pinEls[0]`. -/
def rmInit (pins : List String) (g : RoadGeom) : RoadmapState :=
  let s0 : RoadmapState :=
    { nextId := 1, actives := [], typingInterval := none, activePin := 0,
      isMoving := false, display := [], carPos := 0 }
  showDescriptionForPin pins 0 (initCarPosition g s0)

/-- Run the roadmap module over an event trace. -/
def rmRun (pins : List String) (g : RoadGeom) (evs : List RmEv) : RoadmapState :=
  evs.foldl (rmApply pins g) (rmInit pins g)

/-- Iterate `rmTick` for a fixed handle. -/
def rmTicks (id : ℕ) : ℕ → RoadmapState → RoadmapState
  | 0, s => s
  | n+1, s => rmTicks id n (rmTick id s)

/-- Membership of a description in the `DESCRIPTIONS` table. -/
def TableHas (d : DescData) : Prop := ∃ l, DESCRIPTIONS l = some d

/-- Typewriter-session well-formedness on the roadmap surface: at most one
live interval, tracked by the `typingInterval` variable, and every live
closure's text comes from the description table. -/
def RmSessionsWF (s : RoadmapState) : Prop :=
  (s.actives = [] ∨ ∃ id t, s.actives = [(id, t)] ∧ s.typingInterval = some id)
  ∧ ∀ p ∈ s.actives, ∃ d, TableHas d ∧ p.2.full = d.text ∧ p.2.linkText = d.link.text

/-- Display well-formedness on the roadmap surface: empty, a prefix of one
table description, or one completed description followed by its link. -/
def RmDisplayWF (s : RoadmapState) : Prop :=
  s.display = []
  ∨ (∃ d, TableHas d ∧ ∃ k, s.display = d.text.take k)
  ∨ (∃ d, TableHas d ∧ s.display = d.text ++ ' ' :: d.link.text)

/-- The five pin labels of the page, lowercased, used for concrete runs. -/
def ROADMAP_PINS : List String := ["about", "skills", "projects", "tools", "contact"]

/-- A concrete geometry for concrete runs. -/
def demoGeom : RoadGeom :=
  { pinCenter := fun i => 100 * (i : ℚ) + 50, carWidth := 60, roadWidth := 500 }

/-- A concrete roadmap state holding the `isMoving` guard, used to witness the
guarded-select facts. -/
def rmGuardState : RoadmapState :=
  { nextId := 5, actives := [], typingInterval := none, activePin := 0,
    isMoving := true, display := [], carPos := 77 }

/-- A concrete roadmap state with one in-flight typewriter session, used to
witness the unknown-label facts. -/
def rmDemoTypingState : RoadmapState :=
  { nextId := 2, actives := [(1, { full := ("ab").toList, linkText := ("L").toList, i := 0 })],
    typingInterval := some 1, activePin := 0, isMoving := false, display := [], carPos := 0 }

/- ## Skills module (`initSkillsModule`): staged reveal and detail typing -/

/-- Closure state of one `typeChar` timeout chain: the captured `desc` and the
mutable index `i`. -/
structure SkChain where
  desc : List Char
  i : ℕ
deriving DecidableEq

/-- State of the skills panel: live `setTimeout` handles with closures, the
`typingTimeout` variable, the `#skillDescription` text, which skill is
`center`ed, how many times the staged reveal `animateSkills()` ran, and
whether the reduced-motion branch applied its static classes. -/
structure SkillsState where
  nextId : ℕ
  actives : List (ℕ × SkChain)
  typingTimeout : Option ℕ
  display : List Char
  centered : Option ℕ
  revealCount : ℕ
  staticShown : Bool
deriving DecidableEq

/-- The `clearTimeout(typingTimeout)` call: kill the pending timeout (the
variable itself is left as is, matching the source). -/
def skClearTimeout (s : SkillsState) : SkillsState :=
  match s.typingTimeout with
  | some id => { s with actives := s.actives.filter (fun p => p.1 != id) }
  | none => s

/-- The body of `typeChar`: if a character remains (`i < desc.length`,
i.e. `charAt` is defined), append it and schedule the next timeout in
`typingTimeout`; otherwise do nothing. -/
def typeCharStep (c : SkChain) (s : SkillsState) : SkillsState :=
  match c.desc.get? c.i with
  | some ch =>
      { s with display := s.display ++ [ch],
               actives := (s.nextId, { desc := c.desc, i := c.i + 1 }) :: s.actives,
               typingTimeout := some s.nextId,
               nextId := s.nextId + 1 }
  | none => s

/-- The skill `click` listener: capture `isActive`, strip `center`/`fade`,
cancel the pending timeout, empty the box, and when activating, center the
skill and run `typeChar()` synchronously on its `data-desc` text. -/
def skClick (descs : List (List Char)) (j : ℕ) (s : SkillsState) : SkillsState :=
  let isActive : Bool := s.centered == some j
  let s1 := { s with centered := none }
  let s2 := skClearTimeout s1
  let s3 := { s2 with display := ([] : List Char) }
  if isActive then s3
  else
    let s4 := { s3 with centered := some j }
    typeCharStep { desc := descs.getD j [], i := 0 } s4

/-- Firing of a pending `typeChar` timeout: the browser consumes the handle,
then the chain body runs. -/
def skFire (id : ℕ) (s : SkillsState) : SkillsState :=
  match s.actives.find? (fun p => p.1 == id) with
  | none => s
  | some (id0, c) =>
      let s1 := { s with actives := s.actives.filter (fun p => p.1 != id0) }
      typeCharStep c s1

/-- The `animateSkills()` staged reveal: strips `show`/`center`/`fade` from
every item, empties `#skillDescription`, and replays the bracket/item timing
(abstracted into `revealCount`).  It does not touch `typingTimeout`. -/
def animateSkills (s : SkillsState) : SkillsState :=
  { s with centered := none, display := [], revealCount := s.revealCount + 1 }

/-- One entry of a `revealObserver` callback: an intersecting entry replays
`animateSkills()` when motion is allowed, or applies the static classes under
reduced motion; a non-intersecting entry does nothing. -/
def skObs (rm : Bool) (b : Bool) (s : SkillsState) : SkillsState :=
  if b then
    if rm then { s with staticShown := true }
    else animateSkills s
  else s

/-- Events delivered to the skills panel. -/
inductive SkEv where
  | click (j : ℕ)
  | fire (id : ℕ)
  | obs (b : Bool)
  | pagehide
deriving DecidableEq

/-- Dispatch one skills event. -/
def skApply (rm : Bool) (descs : List (List Char)) (s : SkillsState) : SkEv → SkillsState
  | SkEv.click j => skClick descs j s
  | SkEv.fire id => skFire id s
  | SkEv.obs b => skObs rm b s
  | SkEv.pagehide => skClearTimeout s

/-- Initial skills-panel state after module initialization. -/
def skInit : SkillsState :=
  { nextId := 1, actives := [], typingTimeout := none, display := [],
    centered := none, revealCount := 0, staticShown := false }

/-- Run the skills panel over an event trace. -/
def skRun (rm : Bool) (descs : List (List Char)) (evs : List SkEv) : SkillsState :=
  evs.foldl (skApply rm descs) skInit

/-- Typewriter-session well-formedness on the skills surface: at most one
pending timeout, tracked by `typingTimeout`, and every live chain types a
`data-desc` text. -/
def SkChainsWF (descs : List (List Char)) (s : SkillsState) : Prop :=
  (s.actives = [] ∨ ∃ id c, s.actives = [(id, c)] ∧ s.typingTimeout = some id)
  ∧ ∀ p ∈ s.actives, (p.2.desc = [] ∨ p.2.desc ∈ descs)

/-- Display well-formedness on the skills surface: the box always shows the
live chain's prefix `desc.take i`, and in general a prefix of one description. -/
def SkDisplayWF (descs : List (List Char)) (s : SkillsState) : Prop :=
  (∀ p ∈ s.actives, s.display = p.2.desc.take p.2.i)
  ∧ (s.display = [] ∨ ∃ d ∈ descs, ∃ k, s.display = d.take k)

/-- Checks whether a skills event is a reveal-observer callback. -/
def SkEv.isObs : SkEv → Bool
  | SkEv.obs _ => true
  | _ => false

/-- Checks whether a skills event is an intersecting reveal-observer callback. -/
def SkEv.isIntersectObs : SkEv → Bool
  | SkEv.obs b => b
  | _ => false

/- ## Animation-frame scheduling (sparkle canvas, contact particles, wheels) -/

/-- The three self-scheduling animation-frame loops of the page. -/
inductive Loop where
  | sparkle
  | particles
  | wheels
deriving DecidableEq

/-- Global animation-frame state: the browser's id allocator and pending frame
requests (each tagged with the loop whose callback it will run), the
process-wide `_rafIds` registry, the reduced-motion flag, and the per-loop
module state (`sparkleActive`/`sparkleRafId` and the sparkle canvas,
`running`/`rafId` and the particles canvas, `wheelsRafId`). -/
structure RafState where
  nextId : ℕ
  pending : List (ℕ × Loop)
  rafIds : List ℕ
  reduceMotion : Bool
  sparkleActive : Bool
  sparkleRafId : Option ℕ
  sparkleCanvasEmpty : Bool
  running : Bool
  particlesRafId : Option ℕ
  particlesCanvasEmpty : Bool
  wheelsRafId : Option ℕ
deriving DecidableEq

/-- `requestAnimationFrame(cb)` for loop `l`: allocate a fresh nonzero id and
record the pending request. -/
def requestFrame (l : Loop) (s : RafState) : ℕ × RafState :=
  (s.nextId, { s with nextId := s.nextId + 1, pending := (s.nextId, l) :: s.pending })

/-- `pushRaf(id)`: append a truthy id to the `_rafIds` registry. -/
def pushRaf (id : ℕ) (s : RafState) : RafState :=
  if id ≠ 0 then { s with rafIds := id :: s.rafIds } else s

/-- `cancelAnimationFrame(id)`: drop the pending request with this id. -/
def cancelFrame (id : ℕ) (s : RafState) : RafState :=
  { s with pending := s.pending.filter (fun p => p.1 != id) }

/-- The `drawSparkles()` body: under `!sparkleActive || reduceMotion` clear the
canvas and null the handle; otherwise draw the sparkles and schedule the next
frame, storing and registering its handle. -/
def drawSparkles (s : RafState) : RafState :=
  if s.sparkleActive = false ∨ s.reduceMotion = true then
    { s with sparkleCanvasEmpty := true, sparkleRafId := none }
  else
    let s1 := { s with sparkleCanvasEmpty := false }
    let r := requestFrame Loop.sparkle s1
    pushRaf r.1 { r.2 with sparkleRafId := some r.1 }

/-- The `loop()` body of `initParticlesModule`: return early when not
`running` or under reduced motion; otherwise clear, draw every particle, and
schedule the next frame, storing and registering its handle. -/
def particlesLoop (s : RafState) : RafState :=
  if s.running = false ∨ s.reduceMotion = true then s
  else
    let s1 := { s with particlesCanvasEmpty := false }
    let r := requestFrame Loop.particles s1
    pushRaf r.1 { r.2 with particlesRafId := some r.1 }

/-- The `animateWheels()` body: move the wheels and unconditionally schedule
the next frame, storing and registering its handle. -/
def animateWheels (s : RafState) : RafState :=
  let r := requestFrame Loop.wheels s
  pushRaf r.1 { r.2 with wheelsRafId := some r.1 }

/-- Events of the animation-frame layer: the three intersection-observer
callbacks (one entry each), the wheels resize handler, the browser firing a
pending frame, `stopRafs()` on teardown, and the particles module's own
pagehide listener. -/
inductive RafEv where
  | sparkleObs (b : Bool)
  | particlesObs (b : Bool)
  | wheelsObs (b : Bool)
  | wheelsResize
  | fireFrame (id : ℕ)
  | stopRafs
  | particlesPagehide

/-- Dispatch one animation-frame-layer event, mirroring the corresponding
handler bodies in the source. -/
def rafApply (s : RafState) : RafEv → RafState
  | RafEv.sparkleObs b =>
      let s1 := { s with sparkleActive := b }
      if b then
        if s1.reduceMotion = false ∧ s1.sparkleRafId = none then drawSparkles s1 else s1
      else
        match s1.sparkleRafId with
        | some id =>
            { (cancelFrame id s1) with sparkleRafId := none, sparkleCanvasEmpty := true }
        | none => s1
  | RafEv.particlesObs b =>
      let s1 := { s with running := b }
      if b = true ∧ s1.reduceMotion = false then particlesLoop s1 else s1
  | RafEv.wheelsObs b =>
      if b = true ∧ s.reduceMotion = false then animateWheels s
      else
        match s.wheelsRafId with
        | some id => { (cancelFrame id s) with wheelsRafId := none }
        | none => s
  | RafEv.wheelsResize =>
      let s1 :=
        match s.wheelsRafId with
        | some id => { (cancelFrame id s) with wheelsRafId := none }
        | none => s
      animateWheels s1
  | RafEv.fireFrame id =>
      match s.pending.find? (fun p => p.1 == id) with
      | some pl =>
          let s1 := cancelFrame id s
          match pl.2 with
          | Loop.sparkle => drawSparkles s1
          | Loop.particles => particlesLoop s1
          | Loop.wheels => animateWheels s1
      | none => s
  | RafEv.stopRafs =>
      { s with pending := s.pending.filter (fun p => !(s.rafIds.contains p.1)), rafIds := [] }
  | RafEv.particlesPagehide => { s with running := false }

/-- State right after `DOMContentLoaded` ran every module initializer: the
sparkle loop waits for its observer, the wheels wait for theirs, and
`initParticlesModule` has already called `init(); loop();` with
`running = true`. -/
def rafInit (rm : Bool) : RafState :=
  particlesLoop
    { nextId := 1, pending := [], rafIds := [], reduceMotion := rm,
      sparkleActive := false, sparkleRafId := none, sparkleCanvasEmpty := true,
      running := true, particlesRafId := none, particlesCanvasEmpty := true,
      wheelsRafId := none }

/-- Run the animation-frame layer over an event trace. -/
def rafRun (rm : Bool) (evs : List RafEv) : RafState :=
  evs.foldl rafApply (rafInit rm)

/-- Number of pending frame requests belonging to one loop. -/
def pendingFor (l : Loop) (s : RafState) : ℕ :=
  (s.pending.filter (fun p => p.2 == l)).length

/-- Ids of all pending frame requests. -/
def pendingIds (s : RafState) : List ℕ := s.pending.map Prod.fst

/-- Invariant of the animation-frame layer: fresh ids are positive, every
pending id is registered in `_rafIds` and below the allocator, every pending
sparkle frame is the one tracked by `sparkleRafId`, and the sparkle canvas is
empty whenever its section is not intersecting or reduced motion is active. -/
def RafInv (s : RafState) : Prop :=
  1 ≤ s.nextId
  ∧ (∀ p ∈ s.pending, p.1 ∈ s.rafIds)
  ∧ (∀ id ∈ s.rafIds, id < s.nextId)
  ∧ (∀ p ∈ s.pending, p.2 = Loop.sparkle → some p.1 = s.sparkleRafId)
  ∧ (s.sparkleActive = false → s.sparkleCanvasEmpty = true)
  ∧ (s.reduceMotion = true → s.sparkleCanvasEmpty = true)
  ∧ (s.sparkleCanvasEmpty = false → s.sparkleRafId ≠ none)

/- ## Theorems -/

theorem rand_mul_bounds {r e : ℚ} (h0 : 0 ≤ r) (h1 : r < 1) (he : 0 < e) :
    0 ≤ r * e ∧ r * e < e :=
  ⟨mul_nonneg h0 he.le, mul_lt_of_lt_one_left he h1⟩

theorem wheelStart_bounds {e r : ℚ} (h0 : 0 ≤ r) (h1 : r < 1) (he : 100 ≤ e) :
    0 ≤ wheelStart e r ∧ wheelStart e r < e := by
  have hm : (0:ℚ) < max 100 (e - 100) := lt_of_lt_of_le (by norm_num) (le_max_left _ _)
  have hme : max 100 (e - 100) ≤ e := max_le he (by linarith)
  exact ⟨mul_nonneg h0 hm.le, lt_of_lt_of_le (mul_lt_of_lt_one_left hm h1) hme⟩

/-- C4: processing a sampled video time that is not suppressed by the
0.1-change filter starts the two-text sequence and sets the `playing` flag
exactly when the sample lies in `[CAR_ARRIVAL, CAR_LEAVE)` with the flag
clear, does nothing further while the flag is set inside the window, and
clears the flag and resets both texts outside the window; the sample sequence
`[1, 2, 3, 6, 6, 1]` yields exactly one sequence start and exactly one
`true → false` transition of the flag, and a later re-entry (appending `5/2`)
starts the sequence again. -/
theorem claim_C4_hero_sequencer (s : HeroState) (c : ℚ)
    (hskip : ¬ ratAbs (c - s.lastTimeChecked) < 1/10) :
    heroStepSpec s c
    ∧ countStarts [1, 2, 3, 6, 6, 1] = 1
    ∧ countTrueToFalse [1, 2, 3, 6, 6, 1] = 1
    ∧ countStarts [1, 2, 3, 6, 6, 1, 5/2] = 2 := by
  obtain ⟨lt, pl⟩ := s
  refine ⟨⟨?_, ?_, ?_⟩, ?_, ?_, ?_⟩
  · rintro ⟨h1, h2, h3⟩
    simp only at h3
    subst h3
    simp only [onTimeUpdate, if_neg hskip]
    rw [if_pos ⟨h1, h2, by trivial⟩]
  · rintro ⟨h1, h2, h3⟩
    simp only at h3
    subst h3
    simp only [onTimeUpdate, if_neg hskip]
    rw [if_neg (by simp), if_neg (by push_neg; exact ⟨by simpa [CAR_LEAVE] using h2,
      by simpa [CAR_ARRIVAL] using h1⟩)]
  · intro h
    simp only [onTimeUpdate, if_neg hskip]
    rw [if_neg ?side, if_pos h]
    case side =>
      rintro ⟨h1, h2, _⟩
      rcases h with h | h
      · exact absurd h2 (not_lt.mpr h)
      · exact absurd h1 (not_le.mpr h)
  · norm_num [countStarts, runHero, onTimeUpdate, ratAbs, heroInit, CAR_ARRIVAL, CAR_LEAVE,
      List.count, List.countP]
    decide
  · norm_num [countTrueToFalse, onTimeUpdate, ratAbs, heroInit, CAR_ARRIVAL, CAR_LEAVE]
  · norm_num [countStarts, runHero, onTimeUpdate, ratAbs, heroInit, CAR_ARRIVAL, CAR_LEAVE,
      List.count, List.countP]
    decide

theorem claim_C4_hero_sequencer_witness :
    (¬ ratAbs ((3:ℚ) - heroInit.lastTimeChecked) < 1/10)
    ∧ (heroStepSpec heroInit 3
       ∧ countStarts [1, 2, 3, 6, 6, 1] = 1
       ∧ countTrueToFalse [1, 2, 3, 6, 6, 1] = 1
       ∧ countStarts [1, 2, 3, 6, 6, 1, 5/2] = 2) :=
  ⟨by norm_num [ratAbs, heroInit],
   claim_C4_hero_sequencer heroInit 3 (by norm_num [ratAbs, heroInit])⟩

/-- C7: every submit prevents default navigation, shows the sending status,
and makes exactly one network attempt; an ok response sets the success status,
resets the fields, and schedules the timer that later empties the status; a
non-ok response sets the generic failure status and leaves the fields (and
timer) untouched; a transport failure sets the distinct network-error status
and also leaves the fields untouched. -/
theorem claim_C7_contact_form (d : FormDom) :
    (∀ o : FetchOutcome,
      (formSubmitHandler o d).preventedDefault = true
      ∧ (formSubmitHandler o d).fetchAttempts = 1
      ∧ (formSubmitHandler o d).statusDuringFetch = SENDING_MSG)
    ∧ (formSubmitHandler FetchOutcome.ok d).dom.statusText = SUCCESS_MSG
    ∧ (formSubmitHandler FetchOutcome.ok d).dom.fields = ""
    ∧ statusClearTimer (formSubmitHandler FetchOutcome.ok d).dom =
        { statusText := "", fields := "", clearTimerScheduled := false }
    ∧ (formSubmitHandler FetchOutcome.httpErr d).dom.statusText = HTTP_FAIL_MSG
    ∧ (formSubmitHandler FetchOutcome.httpErr d).dom.fields = d.fields
    ∧ (formSubmitHandler FetchOutcome.httpErr d).dom.clearTimerScheduled = d.clearTimerScheduled
    ∧ (formSubmitHandler FetchOutcome.netErr d).dom.statusText = NETWORK_FAIL_MSG
    ∧ (formSubmitHandler FetchOutcome.netErr d).dom.fields = d.fields
    ∧ SUCCESS_MSG ≠ HTTP_FAIL_MSG ∧ HTTP_FAIL_MSG ≠ NETWORK_FAIL_MSG := by
  refine ⟨fun o => ?_, ?_, ?_, ?_, ?_, ?_, ?_, ?_, ?_, ?_, ?_⟩
  · cases o <;> simp [formSubmitHandler]
  all_goals simp [formSubmitHandler, statusClearTimer]
  · decide
  · decide

/-- C8 counterexample: a floating wheel created by `initWheels` in a 50×50
container from the legal random draw 9/10 starts at x = 90, violating
`x < newWidth`. -/
theorem claim_C8_counterexample :
    (0 ≤ nineTenthsStream 0 ∧ nineTenthsStream 0 < 1)
    ∧ initWheelPositions 50 50 1 nineTenthsStream = [(90, 90)]
    ∧ ¬ ((90:ℚ) < 50) := by
  refine ⟨by norm_num [nineTenthsStream], ?_, by norm_num⟩
  have hmax : max (100:ℚ) (50 - 100) = 100 := max_eq_left (by norm_num)
  simp [initWheelPositions, wheelStart, nineTenthsStream, List.range_succ, hmax]
  norm_num

/-- C8 (amended): immediately after reinitialization, every dust and
car-emoji particle satisfies `0 ≤ x < w` and `0 ≤ y < h` for any positive
canvas bounds; the floating wheels satisfy the same bounds only under the
additional proviso that the container is at least 100 wide and 100 tall
(their start coordinate is drawn from `[0, max 100 (extent - 100))`). -/
theorem claim_C8_reinit_bounds (w h : ℚ) (n : ℕ) (rnd : ℕ → ℚ)
    (hr : ∀ k, 0 ≤ rnd k ∧ rnd k < 1) (hw : 0 < w) (hh : 0 < h) :
    (∀ p ∈ initDust w h n rnd, 0 ≤ p.x ∧ p.x < w ∧ 0 ≤ p.y ∧ p.y < h)
    ∧ (∀ p ∈ initCars w h n rnd, 0 ≤ p.x ∧ p.x < w ∧ 0 ≤ p.y ∧ p.y < h)
    ∧ (100 ≤ w → 100 ≤ h →
        ∀ p ∈ initWheelPositions w h n rnd, 0 ≤ p.1 ∧ p.1 < w ∧ 0 ≤ p.2 ∧ p.2 < h) := by
  refine ⟨?_, ?_, ?_⟩
  · intro p hp
    simp only [initDust, List.mem_map, List.mem_range] at hp
    obtain ⟨k, -, rfl⟩ := hp
    obtain ⟨hx0, hx1⟩ := rand_mul_bounds (hr (4*k)).1 (hr (4*k)).2 hw
    obtain ⟨hy0, hy1⟩ := rand_mul_bounds (hr (4*k+1)).1 (hr (4*k+1)).2 hh
    exact ⟨hx0, hx1, hy0, hy1⟩
  · intro p hp
    simp only [initCars, List.mem_map, List.mem_range] at hp
    obtain ⟨k, -, rfl⟩ := hp
    obtain ⟨hx0, hx1⟩ := rand_mul_bounds (hr (6*k)).1 (hr (6*k)).2 hw
    obtain ⟨hy0, hy1⟩ := rand_mul_bounds (hr (6*k+1)).1 (hr (6*k+1)).2 hh
    exact ⟨hx0, hx1, hy0, hy1⟩
  · intro hw100 hh100 p hp
    simp only [initWheelPositions, List.mem_map, List.mem_range] at hp
    obtain ⟨k, -, rfl⟩ := hp
    obtain ⟨hx0, hx1⟩ := wheelStart_bounds (hr (2*k)).1 (hr (2*k)).2 hw100
    obtain ⟨hy0, hy1⟩ := wheelStart_bounds (hr (2*k+1)).1 (hr (2*k+1)).2 hh100
    exact ⟨hx0, hx1, hy0, hy1⟩

theorem claim_C8_reinit_bounds_witness :
    ((∀ k, 0 ≤ halfStream k ∧ halfStream k < 1) ∧ (0:ℚ) < 200)
    ∧ ((∀ p ∈ initDust 200 200 1 halfStream, 0 ≤ p.x ∧ p.x < 200 ∧ 0 ≤ p.y ∧ p.y < 200)
       ∧ (∀ p ∈ initCars 200 200 1 halfStream, 0 ≤ p.x ∧ p.x < 200 ∧ 0 ≤ p.y ∧ p.y < 200)
       ∧ (100 ≤ (200:ℚ) → 100 ≤ (200:ℚ) →
           ∀ p ∈ initWheelPositions 200 200 1 halfStream,
             0 ≤ p.1 ∧ p.1 < 200 ∧ 0 ≤ p.2 ∧ p.2 < 200)) :=
  ⟨⟨fun _ => ⟨by norm_num [halfStream], by norm_num [halfStream]⟩, by norm_num⟩,
   claim_C8_reinit_bounds 200 200 1 halfStream
     (fun _ => ⟨by norm_num [halfStream], by norm_num [halfStream]⟩)
     (by norm_num) (by norm_num)⟩

/-- C1: the code violates the at-most-one-outstanding-frame invariant.  With
the contact-particles canvas visible at load, module initialization has
already scheduled one frame, and the observer's first intersecting callback
calls `loop()` again without checking the stored handle, leaving two pending
frame requests for the particles loop; likewise a wheels resize while hidden
followed by an intersecting callback leaves two pending wheels requests. -/
theorem claim_C1_duplicate_frames :
    pendingFor Loop.particles (rafRun false [RafEv.particlesObs true]) = 2
    ∧ pendingFor Loop.wheels (rafRun false [RafEv.wheelsResize, RafEv.wheelsObs true]) = 2 := by
  decide

/-- C9 counterexample: with motion allowed, the observer trace
intersecting → not intersecting → intersecting replays the staged reveal:
`animateSkills()` runs twice, not at most once per page load. -/
theorem claim_C9_counterexample :
    (skRun false [] [SkEv.obs true, SkEv.obs false, SkEv.obs true]).revealCount = 2
    ∧ ¬ (skRun false [] [SkEv.obs true, SkEv.obs false, SkEv.obs true]).revealCount ≤ 1 := by
  decide

theorem typeCharStep_revealCount (c : SkChain) (s : SkillsState) :
    (typeCharStep c s).revealCount = s.revealCount := by
  unfold typeCharStep
  cases c.desc.get? c.i <;> rfl

theorem skClearTimeout_revealCount (s : SkillsState) :
    (skClearTimeout s).revealCount = s.revealCount := by
  unfold skClearTimeout
  cases s.typingTimeout <;> rfl

theorem skClick_revealCount (descs : List (List Char)) (j : ℕ) (s : SkillsState) :
    (skClick descs j s).revealCount = s.revealCount := by
  unfold skClick
  cases h : (s.centered == some j) <;>
    simp [h, typeCharStep_revealCount, skClearTimeout_revealCount]

theorem skFire_revealCount (id : ℕ) (s : SkillsState) :
    (skFire id s).revealCount = s.revealCount := by
  unfold skFire
  split
  · rfl
  · rw [typeCharStep_revealCount]

theorem skApply_revealCount (rm : Bool) (descs : List (List Char)) (s : SkillsState)
    (e : SkEv) :
    (skApply rm descs s e).revealCount =
      s.revealCount + (if rm = false ∧ SkEv.isIntersectObs e = true then 1 else 0) := by
  cases e with
  | click j => simp [skApply, SkEv.isIntersectObs, skClick_revealCount]
  | fire id => simp [skApply, SkEv.isIntersectObs, skFire_revealCount]
  | obs b => cases b <;> cases rm <;> simp [skApply, skObs, SkEv.isIntersectObs, animateSkills]
  | pagehide => simp [skApply, SkEv.isIntersectObs, skClearTimeout_revealCount]

theorem skFoldl_revealCount (rm : Bool) (descs : List (List Char)) :
    ∀ (evs : List SkEv) (s : SkillsState),
      (evs.foldl (skApply rm descs) s).revealCount =
        s.revealCount + (if rm = false then (evs.filter SkEv.isIntersectObs).length else 0)
  | [], s => by simp
  | e :: evs, s => by
      rw [List.foldl_cons, skFoldl_revealCount rm descs evs, skApply_revealCount]
      cases rm
      · by_cases h : SkEv.isIntersectObs e = true <;> simp [List.filter_cons, h] <;> omega
      · simp

/-- C9 (amended): the staged reveal is not single-shot.  With motion allowed,
`animateSkills()` runs once per intersecting observer callback — re-entering
the viewport replays the staged bracket/item animation every time; under
reduced motion it never runs. -/
theorem claim_C9_reveal_replays (rm : Bool) (descs : List (List Char)) (evs : List SkEv) :
    (skRun rm descs evs).revealCount =
      if rm = false then (evs.filter SkEv.isIntersectObs).length else 0 := by
  rw [skRun, skFoldl_revealCount]
  simp [skInit]

/-- C5 counterexample: with the `isMoving` guard held (as after any pin
click, until `transitionend`), selecting the non-active pin 1 (`skills`)
leaves the car in place but switches the active waypoint from 0 to 1 and
starts a fresh typewriter session (interval handle 5) — not the claimed
complete no-op. -/
theorem claim_C5_counterexample :
    rmGuardState.isMoving = true
    ∧ rmGuardState.activePin = 0
    ∧ rmGuardState.typingInterval = none
    ∧ (clickPin ROADMAP_PINS demoGeom 1 rmGuardState).activePin = 1
    ∧ (clickPin ROADMAP_PINS demoGeom 1 rmGuardState).typingInterval = some 5
    ∧ (clickPin ROADMAP_PINS demoGeom 1 rmGuardState).actives ≠ rmGuardState.actives
    ∧ (clickPin ROADMAP_PINS demoGeom 1 rmGuardState).carPos = rmGuardState.carPos := by
  refine ⟨rfl, rfl, rfl, rfl, rfl, by decide, rfl⟩

/-- C5 (amended): selecting the already-active waypoint is a complete no-op
(selecting it twice in a row changes nothing), and while a move is in
progress the car never moves and the guard stays held; however — as the
counterexample shows — selecting a different waypoint during a move still
switches the active waypoint and starts a new typewriter session. -/
theorem clearTyping_frame (s : RoadmapState) :
    (clearTyping s).carPos = s.carPos ∧ (clearTyping s).isMoving = s.isMoving := by
  unfold clearTyping
  cases s.typingInterval <;> exact ⟨rfl, rfl⟩

theorem showDescriptionForPin_frame (pins : List String) (idx : ℕ) (s : RoadmapState) :
    (showDescriptionForPin pins idx s).carPos = s.carPos
    ∧ (showDescriptionForPin pins idx s).isMoving = s.isMoving := by
  unfold showDescriptionForPin
  split
  · exact ⟨rfl, rfl⟩
  · exact ⟨(clearTyping_frame s).1, (clearTyping_frame s).2⟩

theorem claim_C5_select_noop (pins : List String) (g : RoadGeom) (idx : ℕ)
    (s : RoadmapState) :
    (s.activePin = idx → clickPin pins g idx s = s)
    ∧ (s.isMoving = true →
        (clickPin pins g idx s).carPos = s.carPos
        ∧ (clickPin pins g idx s).isMoving = true) := by
  constructor
  · intro h
    simp [clickPin, h]
  · intro h
    unfold clickPin
    by_cases ha : s.activePin = idx
    · simp [ha, h]
    · rw [if_neg ha]
      show (showDescriptionForPin pins idx
              (moveCarTo g idx { s with activePin := idx })).carPos = s.carPos
        ∧ (showDescriptionForPin pins idx
              (moveCarTo g idx { s with activePin := idx })).isMoving = true
      have hm : moveCarTo g idx { s with activePin := idx } = { s with activePin := idx } := by
        unfold moveCarTo
        exact if_pos h
      rw [hm]
      refine ⟨(showDescriptionForPin_frame pins idx _).1, ?_⟩
      rw [(showDescriptionForPin_frame pins idx _).2]
      exact h

theorem claim_C5_select_noop_witness :
    rmGuardState.activePin = 0
    ∧ clickPin ROADMAP_PINS demoGeom 0 rmGuardState = rmGuardState
    ∧ rmGuardState.isMoving = true
    ∧ (clickPin ROADMAP_PINS demoGeom 3 rmGuardState).carPos = rmGuardState.carPos
    ∧ (clickPin ROADMAP_PINS demoGeom 3 rmGuardState).isMoving = true :=
  ⟨rfl,
   (claim_C5_select_noop ROADMAP_PINS demoGeom 0 rmGuardState).1 rfl,
   rfl,
   ((claim_C5_select_noop ROADMAP_PINS demoGeom 3 rmGuardState).2 rfl).1,
   ((claim_C5_select_noop ROADMAP_PINS demoGeom 3 rmGuardState).2 rfl).2⟩

theorem rmTicks_complete (id : ℕ) :
    ∀ (n : ℕ) (t : RmSession) (s : RoadmapState),
      s.actives = [(id, t)] → s.typingInterval = some id →
      t.full.length = t.i + n + 1 →
      (rmTicks id (n + 1) s).display = t.full ++ ' ' :: t.linkText
      ∧ (rmTicks id (n + 1) s).actives = []
      ∧ (rmTicks id (n + 1) s).typingInterval = none
  | 0, t, s, ha, hv, hl => by
      have htake : t.full.take (t.i + 1) = t.full := by
        refine List.take_of_length_le ?_
        omega
      have hfind : List.find? (fun p => p.1 == id) [(id, t)] = some (id, t) := by simp
      simp only [rmTicks, rmTick, ha, hfind, clearTyping, hv]
      rw [if_pos (by omega)]
      simp [htake]
  | n+1, t, s, ha, hv, hl => by
      have hfind : List.find? (fun p => p.1 == id) [(id, t)] = some (id, t) := by simp
      have hstep : rmTick id s =
          { s with
            actives := [(id, { t with i := t.i + 1 })],
            display := t.full.take (t.i + 1) } := by
        simp only [rmTick, ha, hfind]
        rw [if_neg (by omega)]
        simp
      have := rmTicks_complete id n { t with i := t.i + 1 }
        { s with actives := [(id, { t with i := t.i + 1 })], display := t.full.take (t.i + 1) }
        rfl hv (by simpa using by omega)
      simpa [rmTicks, hstep] using this

/-- C10: invoking the description reveal for a pin whose lowercased label is
not a key of `DESCRIPTIONS` changes nothing at all — the early return happens
before the cancel-and-clear step, so the state (including the displayed text)
is untouched — and an in-flight typewriter session from a previous waypoint
keeps running to completion: after its remaining ticks the surface shows the
full text plus link and the interval is gone. -/
theorem claim_C10_unknown_label (pins : List String) (idx : ℕ) (s : RoadmapState)
    (h : DESCRIPTIONS (pins.getD idx "") = none) :
    showDescriptionForPin pins idx s = s
    ∧ ∀ (id : ℕ) (t : RmSession) (n : ℕ),
        s.actives = [(id, t)] → s.typingInterval = some id →
        t.full.length = t.i + n + 1 →
        (rmTicks id (n + 1) (showDescriptionForPin pins idx s)).display
            = t.full ++ ' ' :: t.linkText
        ∧ (rmTicks id (n + 1) (showDescriptionForPin pins idx s)).actives = [] := by
  have hid : showDescriptionForPin pins idx s = s := by
    unfold showDescriptionForPin
    rw [h]
  refine ⟨hid, ?_⟩
  intro id t n ha hv hl
  rw [hid]
  exact ⟨(rmTicks_complete id n t s ha hv hl).1, (rmTicks_complete id n t s ha hv hl).2.1⟩

theorem foldl_preserve {σ ε : Type _} (P : σ → Prop) (f : σ → ε → σ)
    (hstep : ∀ s e, P s → P (f s e)) :
    ∀ (evs : List ε) (s : σ), P s → P (evs.foldl f s)
  | [], _, h => h
  | e :: evs, s, h => foldl_preserve P f hstep evs (f s e) (hstep s e h)

theorem foldl_preserve_of {σ ε : Type _} (P : σ → Prop) (f : σ → ε → σ) (Q : ε → Prop)
    (hstep : ∀ s e, Q e → P s → P (f s e)) :
    ∀ (evs : List ε) (s : σ), (∀ e ∈ evs, Q e) → P s → P (evs.foldl f s)
  | [], _, _, h => h
  | e :: evs, s, hq, h =>
      foldl_preserve_of P f Q hstep evs (f s e) (fun x hx => hq x (List.mem_cons_of_mem e hx))
        (hstep s e (hq e (List.mem_cons_self e evs)) h)

theorem clearTyping_actives_nil (s : RoadmapState) (h : RmSessionsWF s) :
    (clearTyping s).actives = [] := by
  obtain ⟨huniq, -⟩ := h
  unfold clearTyping
  rcases huniq with h0 | ⟨a, u, ha, hv⟩
  · cases s.typingInterval <;> simp [h0]
  · rw [hv]
    simp [ha]

theorem clearTyping_display (s : RoadmapState) : (clearTyping s).display = s.display := by
  unfold clearTyping
  cases s.typingInterval <;> rfl

theorem rmWF_transport {s u : RoadmapState} (hA : u.actives = s.actives)
    (hV : u.typingInterval = s.typingInterval) (hD : u.display = s.display)
    (h : RmSessionsWF s ∧ RmDisplayWF s) : RmSessionsWF u ∧ RmDisplayWF u := by
  unfold RmSessionsWF RmDisplayWF at *
  rw [hA, hV, hD]
  exact h

theorem showDescriptionForPin_inv (pins : List String) (idx : ℕ) (s : RoadmapState)
    (h : RmSessionsWF s ∧ RmDisplayWF s) :
    RmSessionsWF (showDescriptionForPin pins idx s)
    ∧ RmDisplayWF (showDescriptionForPin pins idx s) := by
  have hnil := clearTyping_actives_nil s h.1
  unfold showDescriptionForPin
  split
  · exact h
  · rename_i data hdata
    refine ⟨⟨Or.inr ⟨(clearTyping s).nextId,
      { full := data.text, linkText := data.link.text, i := 0 }, ?_, rfl⟩, ?_⟩, Or.inl rfl⟩
    · show ((clearTyping s).nextId,
          ({ full := data.text, linkText := data.link.text, i := 0 } : RmSession))
            :: (clearTyping s).actives = _
      rw [hnil]
    · intro p hp
      have hp2 : p ∈ ((clearTyping s).nextId,
          ({ full := data.text, linkText := data.link.text, i := 0 } : RmSession))
            :: (clearTyping s).actives := hp
      rw [hnil] at hp2
      simp only [List.mem_singleton] at hp2
      subst hp2
      exact ⟨data, ⟨_, hdata⟩, rfl, rfl⟩

theorem rmTick_inv (id : ℕ) (s : RoadmapState)
    (h : RmSessionsWF s ∧ RmDisplayWF s) :
    RmSessionsWF (rmTick id s) ∧ RmDisplayWF (rmTick id s) := by
  obtain ⟨⟨huniq, htab⟩, hd⟩ := h
  unfold rmTick
  rcases huniq with h0 | ⟨a, u, ha, hv⟩
  · rw [h0]
    simp only [List.find?_nil]
    exact ⟨⟨Or.inl h0, htab⟩, hd⟩
  · obtain ⟨dsc, hdsc, hfull, hlink⟩ := htab (a, u) (by rw [ha]; exact List.mem_singleton.mpr rfl)
    by_cases hai : a = id
    · subst hai
      have hfind : List.find? (fun p => p.1 == a) [(a, u)] = some (a, u) := by simp
      rw [ha]
      simp only [hfind]
      by_cases hlen : u.full.length ≤ u.i + 1
      · rw [if_pos hlen]
        have hcA : (clearTyping s).actives = [] :=
          clearTyping_actives_nil s ⟨Or.inr ⟨a, u, ha, hv⟩, htab⟩
        constructor
        · constructor
          · left
            show ((clearTyping s).actives.map _) = []
            rw [hcA]
            rfl
          · intro p hp
            have hp2 : p ∈ (clearTyping s).actives.map
                (fun p => if p.1 == a then (p.1, { u with i := u.i + 1 }) else p) := hp
            rw [hcA] at hp2
            simp at hp2
        · right; right
          refine ⟨dsc, hdsc, ?_⟩
          show u.full.take (u.i + 1) ++ ' ' :: u.linkText = _
          rw [List.take_of_length_le hlen, hfull, hlink]
      · rw [if_neg hlen]
        constructor
        · constructor
          · right
            refine ⟨a, { u with i := u.i + 1 }, ?_, hv⟩
            show [(a, u)].map _ = _
            simp
          · intro p hp
            have hp2 : p ∈ [(a, u)].map
                (fun p => if p.1 == a then (p.1, { u with i := u.i + 1 }) else p) := hp
            simp only [List.map_cons, List.map_nil, beq_self_eq_true, if_pos,
              List.mem_singleton] at hp2
            subst hp2
            exact ⟨dsc, hdsc, hfull, hlink⟩
        · right; left
          refine ⟨dsc, hdsc, u.i + 1, ?_⟩
          show u.full.take (u.i + 1) = _
          rw [hfull]
    · have hfind : List.find? (fun p => p.1 == id) [(a, u)] = none := by simp [hai]
      rw [ha]
      simp only [hfind]
      exact ⟨⟨Or.inr ⟨a, u, ha, hv⟩, htab⟩, hd⟩

theorem moveCarTo_frame (g : RoadGeom) (idx : ℕ) (s : RoadmapState) :
    (moveCarTo g idx s).actives = s.actives
    ∧ (moveCarTo g idx s).typingInterval = s.typingInterval
    ∧ (moveCarTo g idx s).display = s.display := by
  unfold moveCarTo
  split <;> exact ⟨rfl, rfl, rfl⟩

theorem rmApply_inv (pins : List String) (g : RoadGeom) (s : RoadmapState) (e : RmEv)
    (h : RmSessionsWF s ∧ RmDisplayWF s) :
    RmSessionsWF (rmApply pins g s e) ∧ RmDisplayWF (rmApply pins g s e) := by
  cases e with
  | click idx =>
      show RmSessionsWF (clickPin pins g idx s) ∧ RmDisplayWF (clickPin pins g idx s)
      unfold clickPin
      split
      · exact h
      · refine showDescriptionForPin_inv pins idx _ ?_
        exact rmWF_transport (moveCarTo_frame g idx _).1 (moveCarTo_frame g idx _).2.1
          (moveCarTo_frame g idx _).2.2 h
  | tick id => exact rmTick_inv id s h
  | transitionEnd => exact rmWF_transport rfl rfl rfl h
  | resize => exact rmWF_transport rfl rfl rfl h
  | pagehide =>
      show RmSessionsWF (clearTyping s) ∧ RmDisplayWF (clearTyping s)
      have hnil := clearTyping_actives_nil s h.1
      constructor
      · constructor
        · exact Or.inl hnil
        · intro p hp
          rw [hnil] at hp
          simp at hp
      · have := clearTyping_display s
        unfold RmDisplayWF
        rw [this]
        exact h.2

theorem rmRun_inv (pins : List String) (g : RoadGeom) (evs : List RmEv) :
    RmSessionsWF (rmRun pins g evs) ∧ RmDisplayWF (rmRun pins g evs) := by
  refine foldl_preserve _ _ (fun s e h => rmApply_inv pins g s e h) evs _ ?_
  refine showDescriptionForPin_inv pins 0 _ ?_
  exact ⟨⟨Or.inl rfl, by intro p hp; simp [initCarPosition] at hp⟩, Or.inl rfl⟩

theorem skClearTimeout_actives_nil (descs : List (List Char)) (s : SkillsState)
    (h : SkChainsWF descs s) : (skClearTimeout s).actives = [] := by
  obtain ⟨huniq, -⟩ := h
  unfold skClearTimeout
  rcases huniq with h0 | ⟨a, c, ha, hv⟩
  · cases s.typingTimeout <;> simp [h0]
  · rw [hv]
    simp [ha]

theorem skClearTimeout_display (s : SkillsState) :
    (skClearTimeout s).display = s.display := by
  unfold skClearTimeout
  cases s.typingTimeout <;> rfl

theorem getD_mem_or (descs : List (List Char)) (j : ℕ) :
    descs.getD j [] = [] ∨ descs.getD j [] ∈ descs := by
  rw [List.getD_eq_getElem?_getD, ← List.get?_eq_getElem?]
  cases h : descs.get? j with
  | none => left; rfl
  | some d =>
      right
      simpa using List.get?_mem h

theorem typeCharStep_chains (descs : List (List Char)) (c0 : SkChain) (s : SkillsState)
    (hnil : s.actives = []) (hdesc : c0.desc = [] ∨ c0.desc ∈ descs) :
    SkChainsWF descs (typeCharStep c0 s) := by
  unfold typeCharStep
  cases hget : c0.desc.get? c0.i with
  | none =>
      refine ⟨Or.inl hnil, ?_⟩
      intro p hp
      rw [hnil] at hp
      simp at hp
  | some ch =>
      constructor
      · right
        exact ⟨s.nextId, _, by rw [hnil], rfl⟩
      · intro p hp
        rw [hnil] at hp
        simp only [List.mem_singleton] at hp
        subst hp
        exact hdesc

theorem typeCharStep_display (descs : List (List Char)) (c0 : SkChain) (s : SkillsState)
    (hnil : s.actives = []) (hdesc : c0.desc = [] ∨ c0.desc ∈ descs)
    (hsync : s.display = c0.desc.take c0.i) :
    SkDisplayWF descs (typeCharStep c0 s) := by
  unfold typeCharStep
  cases hget : c0.desc.get? c0.i with
  | none =>
      constructor
      · intro p hp
        rw [hnil] at hp
        simp at hp
      · rcases hdesc with h | h
        · left
          rw [hsync, h, List.take_nil]
        · right
          exact ⟨c0.desc, h, c0.i, hsync⟩
  | some ch =>
      have htake : s.display ++ [ch] = c0.desc.take (c0.i + 1) := by
        rw [hsync, List.take_succ, ← List.get?_eq_getElem?, hget]
        rfl
      constructor
      · intro p hp
        rw [hnil] at hp
        simp only [List.mem_singleton] at hp
        subst hp
        exact htake
      · rcases hdesc with h | h
        · rw [h] at hget
          simp at hget
        · right
          exact ⟨c0.desc, h, c0.i + 1, htake⟩

theorem skClick_inv (descs : List (List Char)) (j : ℕ) (s : SkillsState)
    (h : SkChainsWF descs s) :
    SkChainsWF descs (skClick descs j s) ∧ SkDisplayWF descs (skClick descs j s) := by
  have hnil : (skClearTimeout { s with centered := none }).actives = [] :=
    skClearTimeout_actives_nil descs _ h
  unfold skClick
  cases hact : (s.centered == some j) with
  | true =>
      simp only [Bool.true_eq_false, if_true]
      refine ⟨⟨Or.inl hnil, ?_⟩, ?_, Or.inl rfl⟩
      · intro p hp
        rw [hnil] at hp
        simp at hp
      · intro p hp
        rw [hnil] at hp
        simp at hp
  | false =>
      simp only [Bool.false_eq_true, if_false]
      constructor
      · exact typeCharStep_chains descs _ _ hnil (getD_mem_or descs j)
      · exact typeCharStep_display descs _ _ hnil (getD_mem_or descs j) rfl

theorem skFire_chains (descs : List (List Char)) (id : ℕ) (s : SkillsState)
    (h : SkChainsWF descs s) : SkChainsWF descs (skFire id s) := by
  obtain ⟨huniq, hdescs⟩ := h
  unfold skFire
  cases hfind : s.actives.find? (fun p => p.1 == id) with
  | none => exact ⟨huniq, hdescs⟩
  | some pc =>
      obtain ⟨a, c⟩ := pc
      have hmem : (a, c) ∈ s.actives := List.mem_of_find?_eq_some hfind
      rcases huniq with h0 | ⟨b, c2, hb, hv⟩
      · rw [h0] at hmem
        simp at hmem
      · rw [hb] at hmem
        simp only [List.mem_singleton, Prod.ext_iff] at hmem
        have hnil : s.actives.filter (fun p => p.1 != a) = [] := by
          rw [hb]
          simp [hmem.1]
        exact typeCharStep_chains descs c _ hnil
          (hdescs (a, c) (by rw [hb, ← hmem.1, ← hmem.2]; exact List.mem_singleton.mpr rfl))

theorem skFire_display (descs : List (List Char)) (id : ℕ) (s : SkillsState)
    (h : SkChainsWF descs s) (hd : SkDisplayWF descs s) :
    SkDisplayWF descs (skFire id s) := by
  obtain ⟨huniq, hdescs⟩ := h
  unfold skFire
  cases hfind : s.actives.find? (fun p => p.1 == id) with
  | none => exact hd
  | some pc =>
      obtain ⟨a, c⟩ := pc
      have hmem : (a, c) ∈ s.actives := List.mem_of_find?_eq_some hfind
      rcases huniq with h0 | ⟨b, c2, hb, hv⟩
      · rw [h0] at hmem
        simp at hmem
      · rw [hb] at hmem
        simp only [List.mem_singleton, Prod.ext_iff] at hmem
        have hnil : s.actives.filter (fun p => p.1 != a) = [] := by
          rw [hb]
          simp [hmem.1]
        refine typeCharStep_display descs c _ hnil
          (hdescs (a, c) (by rw [hb, ← hmem.1, ← hmem.2]; exact List.mem_singleton.mpr rfl)) ?_
        exact hd.1 (a, c) (by rw [← hmem.1, ← hmem.2] at hb; rw [hb]; exact List.mem_singleton.mpr rfl)

theorem skApply_chains (rm : Bool) (descs : List (List Char)) (s : SkillsState) (e : SkEv)
    (h : SkChainsWF descs s) : SkChainsWF descs (skApply rm descs s e) := by
  cases e with
  | click j => exact (skClick_inv descs j s h).1
  | fire id => exact skFire_chains descs id s h
  | obs b =>
      show SkChainsWF descs (skObs rm b s)
      unfold skObs animateSkills
      split
      · split
        · exact h
        · exact h
      · exact h
  | pagehide =>
      show SkChainsWF descs (skClearTimeout s)
      have hnil := skClearTimeout_actives_nil descs s h
      refine ⟨Or.inl hnil, ?_⟩
      intro p hp
      rw [hnil] at hp
      simp at hp

theorem skRun_chains (rm : Bool) (descs : List (List Char)) (evs : List SkEv) :
    SkChainsWF descs (skRun rm descs evs) := by
  refine foldl_preserve _ _ (fun s e h => skApply_chains rm descs s e h) evs _ ?_
  exact ⟨Or.inl rfl, by intro p hp; simp [skInit] at hp⟩

theorem skApply_inv_noObs (rm : Bool) (descs : List (List Char)) (s : SkillsState) (e : SkEv)
    (hq : SkEv.isObs e = false)
    (h : SkChainsWF descs s ∧ SkDisplayWF descs s) :
    SkChainsWF descs (skApply rm descs s e) ∧ SkDisplayWF descs (skApply rm descs s e) := by
  cases e with
  | click j => exact skClick_inv descs j s h.1
  | fire id => exact ⟨skFire_chains descs id s h.1, skFire_display descs id s h.1 h.2⟩
  | obs b => simp [SkEv.isObs] at hq
  | pagehide =>
      refine ⟨skApply_chains rm descs s SkEv.pagehide h.1, ?_⟩
      show SkDisplayWF descs (skClearTimeout s)
      have hnil := skClearTimeout_actives_nil descs s h.1
      constructor
      · intro p hp
        rw [hnil] at hp
        simp at hp
      · unfold SkDisplayWF at *
        rw [skClearTimeout_display]
        exact h.2.2

/-- C6 counterexample: with the single skill description `HTML` and motion
allowed, click the skill (types `H`), let one chain timeout fire (`HT`), then
let the reveal observer re-fire on an intersecting entry — `animateSkills()`
empties the box but does not cancel the chain — and let the next chain
timeout fire: the box now shows `M`, which is neither empty nor a prefix of
any description, refuting the claim that the displayed text is always a
prefix of exactly one description. -/
theorem claim_C6_counterexample :
    (skRun false [("HTML").toList]
        [SkEv.click 0, SkEv.fire 1, SkEv.obs true, SkEv.fire 2]).display = ['M']
    ∧ List.isPrefixOf
        (skRun false [("HTML").toList]
          [SkEv.click 0, SkEv.fire 1, SkEv.obs true, SkEv.fire 2]).display
        (("HTML").toList) = false
    ∧ (skRun false [("HTML").toList]
        [SkEv.click 0, SkEv.fire 1, SkEv.obs true, SkEv.fire 2]).display ≠ [] := by
  decide

/-- C6 (amended): each description surface has at most one live typewriter
session at any time, tracked by its handle variable, and starting a new
reveal cancels the prior session and empties the surface.  On the roadmap
surface the displayed text is always empty, a prefix of one table
description, or a completed description plus its link, over all event traces.
On the skills surface the same display shape holds over traces free of
reveal-observer callbacks; an intersecting reveal callback during an
in-flight session empties the box without cancelling the chain, after which
the box can show a non-prefix fragment (see the counterexample). -/
theorem claim_C6_typewriter (pins : List String) (g : RoadGeom) (evs : List RmEv)
    (rm : Bool) (descs : List (List Char)) (allEvs : List SkEv) (skEvs : List SkEv)
    (hobs : ∀ e ∈ skEvs, SkEv.isObs e = false) :
    (RmSessionsWF (rmRun pins g evs) ∧ RmDisplayWF (rmRun pins g evs))
    ∧ SkChainsWF descs (skRun rm descs allEvs)
    ∧ (SkChainsWF descs (skRun rm descs skEvs) ∧ SkDisplayWF descs (skRun rm descs skEvs)) := by
  refine ⟨rmRun_inv pins g evs, skRun_chains rm descs allEvs, ?_⟩
  refine foldl_preserve_of _ _ (fun e => SkEv.isObs e = false)
    (fun s e hq h => skApply_inv_noObs rm descs s e hq h) skEvs _ hobs ?_
  constructor
  · exact ⟨Or.inl rfl, by intro p hp; simp [skInit] at hp⟩
  · exact ⟨by intro p hp; simp [skInit] at hp, Or.inl rfl⟩

theorem claim_C6_typewriter_witness :
    (∀ e ∈ [SkEv.click 0], SkEv.isObs e = false)
    ∧ ((RmSessionsWF (rmRun ROADMAP_PINS demoGeom [RmEv.click 1])
          ∧ RmDisplayWF (rmRun ROADMAP_PINS demoGeom [RmEv.click 1]))
       ∧ SkChainsWF [("HTML").toList] (skRun false [("HTML").toList] [SkEv.obs true])
       ∧ (SkChainsWF [("HTML").toList] (skRun false [("HTML").toList] [SkEv.click 0])
          ∧ SkDisplayWF [("HTML").toList] (skRun false [("HTML").toList] [SkEv.click 0]))) :=
  ⟨by decide,
   claim_C6_typewriter ROADMAP_PINS demoGeom [RmEv.click 1] false [("HTML").toList]
     [SkEv.obs true] [SkEv.click 0] (by decide)⟩

theorem claim_C10_unknown_label_witness :
    DESCRIPTIONS ((["home"] : List String).getD 0 "") = none
    ∧ showDescriptionForPin ["home"] 0 rmDemoTypingState = rmDemoTypingState
    ∧ (rmTicks 1 2 (showDescriptionForPin ["home"] 0 rmDemoTypingState)).display
        = ("ab").toList ++ ' ' :: ("L").toList :=
  ⟨by simp [DESCRIPTIONS],
   (claim_C10_unknown_label ["home"] 0 rmDemoTypingState (by simp [DESCRIPTIONS])).1,
   ((claim_C10_unknown_label ["home"] 0 rmDemoTypingState (by simp [DESCRIPTIONS])).2 1
      { full := ("ab").toList, linkText := ("L").toList, i := 0 } 1 rfl rfl (by decide)).1⟩

theorem drawSparkles_inv (s : RafState) (h : RafInv s)
    (hns : ∀ p ∈ s.pending, p.2 ≠ Loop.sparkle) : RafInv (drawSparkles s) := by
  obtain ⟨h1, h2, h3, h4, h5, h6, h7⟩ := h
  simp only [drawSparkles, requestFrame, pushRaf]
  by_cases hc : s.sparkleActive = false ∨ s.reduceMotion = true
  · rw [if_pos hc]
    exact ⟨h1, h2, h3, fun p hp hsp => absurd hsp (hns p hp), fun _ => rfl, fun _ => rfl,
      fun hfe => by simp at hfe⟩
  · rw [if_neg hc, if_pos (show s.nextId ≠ 0 by omega)]
    push_neg at hc
    refine ⟨by exact Nat.le_succ_of_le h1, ?_, ?_, ?_, ?_, ?_, by simp⟩
    · intro p hp
      rcases List.mem_cons.mp hp with hph | hpt
      · rw [hph]
        exact List.mem_cons_self _ _
      · exact List.mem_cons_of_mem _ (h2 p hpt)
    · intro idr hidr
      rcases List.mem_cons.mp hidr with hh | ht
      · rw [hh]
        exact Nat.lt_succ_self _
      · exact Nat.lt_succ_of_lt (h3 idr ht)
    · intro p hp hsp
      rcases List.mem_cons.mp hp with hph | hpt
      · rw [hph]
      · exact absurd hsp (hns p hpt)
    · intro hf
      exact absurd hf hc.1
    · intro hr
      exact absurd hr hc.2

theorem particlesLoop_inv (s : RafState) (h : RafInv s) : RafInv (particlesLoop s) := by
  obtain ⟨h1, h2, h3, h4, h5, h6, h7⟩ := h
  simp only [particlesLoop, requestFrame, pushRaf]
  by_cases hc : s.running = false ∨ s.reduceMotion = true
  · rw [if_pos hc]
    exact ⟨h1, h2, h3, h4, h5, h6, h7⟩
  · rw [if_neg hc, if_pos (show s.nextId ≠ 0 by omega)]
    refine ⟨by exact Nat.le_succ_of_le h1, ?_, ?_, ?_, h5, h6, h7⟩
    · intro p hp
      rcases List.mem_cons.mp hp with hph | hpt
      · rw [hph]
        exact List.mem_cons_self _ _
      · exact List.mem_cons_of_mem _ (h2 p hpt)
    · intro idr hidr
      rcases List.mem_cons.mp hidr with hh | ht
      · rw [hh]
        exact Nat.lt_succ_self _
      · exact Nat.lt_succ_of_lt (h3 idr ht)
    · intro p hp hsp
      rcases List.mem_cons.mp hp with hph | hpt
      · rw [hph] at hsp
        cases hsp
      · exact h4 p hpt hsp

theorem animateWheels_inv (s : RafState) (h : RafInv s) : RafInv (animateWheels s) := by
  obtain ⟨h1, h2, h3, h4, h5, h6, h7⟩ := h
  simp only [animateWheels, requestFrame, pushRaf]
  rw [if_pos (show s.nextId ≠ 0 by omega)]
  refine ⟨by exact Nat.le_succ_of_le h1, ?_, ?_, ?_, h5, h6, h7⟩
  · intro p hp
    rcases List.mem_cons.mp hp with hph | hpt
    · rw [hph]
      exact List.mem_cons_self _ _
    · exact List.mem_cons_of_mem _ (h2 p hpt)
  · intro idr hidr
    rcases List.mem_cons.mp hidr with hh | ht
    · rw [hh]
      exact Nat.lt_succ_self _
    · exact Nat.lt_succ_of_lt (h3 idr ht)
  · intro p hp hsp
    rcases List.mem_cons.mp hp with hph | hpt
    · rw [hph] at hsp
      cases hsp
    · exact h4 p hpt hsp

theorem cancelFrame_inv (idc : ℕ) (s : RafState) (h : RafInv s) :
    RafInv (cancelFrame idc s) := by
  obtain ⟨h1, h2, h3, h4, h5, h6, h7⟩ := h
  exact ⟨h1, fun p hp => h2 p (List.mem_of_mem_filter hp), h3,
    fun p hp => h4 p (List.mem_of_mem_filter hp), h5, h6, h7⟩

theorem stopRafs_pending_nil (s : RafState) (h2 : ∀ p ∈ s.pending, p.1 ∈ s.rafIds) :
    s.pending.filter (fun p => !(s.rafIds.contains p.1)) = [] := by
  rw [List.filter_eq_nil_iff]
  intro p hp
  have hc : s.rafIds.contains p.1 = true := List.elem_iff.mpr (h2 p hp)
  simp [hc]
  exact h2 p hp

theorem rafInv_apply (s : RafState) (e : RafEv) (h : RafInv s) : RafInv (rafApply s e) := by
  obtain ⟨h1, h2, h3, h4, h5, h6, h7⟩ := h
  cases e with
  | sparkleObs b =>
      cases b with
      | true =>
          show RafInv (if s.reduceMotion = false ∧ s.sparkleRafId = none
            then drawSparkles { s with sparkleActive := true }
            else { s with sparkleActive := true })
          have hinv1 : RafInv { s with sparkleActive := true } :=
            ⟨h1, h2, h3, h4, fun hf => by simp at hf, h6, h7⟩
          by_cases hg : s.reduceMotion = false ∧ s.sparkleRafId = none
          · rw [if_pos hg]
            refine drawSparkles_inv _ hinv1 ?_
            intro p hp hsp
            have := h4 p hp hsp
            rw [hg.2] at this
            cases this
          · rw [if_neg hg]
            exact hinv1
      | false =>
          show RafInv (match s.sparkleRafId with
            | some id =>
                { (cancelFrame id { s with sparkleActive := false }) with
                  sparkleRafId := none, sparkleCanvasEmpty := true }
            | none => { s with sparkleActive := false })
          cases hrid : s.sparkleRafId with
          | none =>
              refine ⟨h1, h2, h3, ?_, ?_, ?_, ?_⟩
              · intro p hp hsp
                rw [h4 p hp hsp, hrid]
              · intro _
                cases hemp : s.sparkleCanvasEmpty with
                | false => exact absurd hrid (h7 hemp)
                | true => rfl
              · intro hr
                exact h6 hr
              · intro hfe
                exact absurd hrid (h7 hfe)
          | some idr =>
              refine ⟨h1, ?_, h3, ?_, fun _ => rfl, fun _ => rfl, fun hfe => by simp at hfe⟩
              · intro p hp
                exact h2 p (List.mem_of_mem_filter hp)
              · intro p hp hsp
                have hm := List.mem_filter.mp hp
                have heq := h4 p hm.1 hsp
                rw [hrid] at heq
                have hpe : p.1 = idr := by
                  cases heq
                  rfl
                simp [hpe] at hm
  | particlesObs b =>
      show RafInv (if b = true ∧ s.reduceMotion = false
        then particlesLoop { s with running := b } else { s with running := b })
      have hinv1 : RafInv { s with running := b } := ⟨h1, h2, h3, h4, h5, h6, h7⟩
      by_cases hg : b = true ∧ s.reduceMotion = false
      · rw [if_pos hg]
        exact particlesLoop_inv _ hinv1
      · rw [if_neg hg]
        exact hinv1
  | wheelsObs b =>
      show RafInv (if b = true ∧ s.reduceMotion = false then animateWheels s
        else match s.wheelsRafId with
          | some id => { (cancelFrame id s) with wheelsRafId := none }
          | none => s)
      by_cases hg : b = true ∧ s.reduceMotion = false
      · rw [if_pos hg]
        exact animateWheels_inv s ⟨h1, h2, h3, h4, h5, h6, h7⟩
      · rw [if_neg hg]
        cases s.wheelsRafId with
        | none => exact ⟨h1, h2, h3, h4, h5, h6, h7⟩
        | some idw =>
            exact ⟨h1, fun p hp => h2 p (List.mem_of_mem_filter hp), h3,
              fun p hp => h4 p (List.mem_of_mem_filter hp), h5, h6, h7⟩
  | wheelsResize =>
      show RafInv (animateWheels (match s.wheelsRafId with
        | some id => { (cancelFrame id s) with wheelsRafId := none }
        | none => s))
      refine animateWheels_inv _ ?_
      cases s.wheelsRafId with
      | none => exact ⟨h1, h2, h3, h4, h5, h6, h7⟩
      | some idw =>
          exact ⟨h1, fun p hp => h2 p (List.mem_of_mem_filter hp), h3,
            fun p hp => h4 p (List.mem_of_mem_filter hp), h5, h6, h7⟩
  | fireFrame id =>
      show RafInv (match s.pending.find? (fun p => p.1 == id) with
        | some pl =>
            match pl.2 with
            | Loop.sparkle => drawSparkles (cancelFrame id s)
            | Loop.particles => particlesLoop (cancelFrame id s)
            | Loop.wheels => animateWheels (cancelFrame id s)
        | none => s)
      have hinvc : RafInv (cancelFrame id s) :=
        cancelFrame_inv id s ⟨h1, h2, h3, h4, h5, h6, h7⟩
      cases hfind : s.pending.find? (fun p => p.1 == id) with
      | none => exact ⟨h1, h2, h3, h4, h5, h6, h7⟩
      | some pl =>
          obtain ⟨pid, pl2⟩ := pl
          have hplmem : (pid, pl2) ∈ s.pending := List.mem_of_find?_eq_some hfind
          have hplid : pid = id := by simpa using List.find?_some hfind
          cases pl2 with
          | sparkle =>
              refine drawSparkles_inv _ hinvc ?_
              intro p hp hsp
              have hm := List.mem_filter.mp hp
              have hsid : s.sparkleRafId = some id := by
                rw [← hplid]
                exact (h4 (pid, Loop.sparkle) hplmem rfl).symm
              have heq := h4 p hm.1 hsp
              rw [hsid] at heq
              have hpe : p.1 = id := by
                cases heq
                rfl
              simp [hpe] at hm
          | particles => exact particlesLoop_inv _ hinvc
          | wheels => exact animateWheels_inv _ hinvc
  | stopRafs =>
      show RafInv { s with
        pending := s.pending.filter (fun p => !(s.rafIds.contains p.1)), rafIds := [] }
      have hnil := stopRafs_pending_nil s h2
      refine ⟨h1, ?_, ?_, ?_, h5, h6, h7⟩
      · intro p hp
        rw [hnil] at hp
        simp at hp
      · intro idr hidr
        simp at hidr
      · intro p hp
        rw [hnil] at hp
        simp at hp
  | particlesPagehide => exact ⟨h1, h2, h3, h4, h5, h6, h7⟩

theorem rafInit_inv (rm : Bool) : RafInv (rafInit rm) := by
  refine particlesLoop_inv _ ?_
  refine ⟨le_refl 1, ?_, ?_, ?_, fun _ => rfl, fun _ => rfl, fun hfe => by simp at hfe⟩
  · intro p hp
    simp at hp
  · intro idr hidr
    simp at hidr
  · intro p hp
    simp at hp

theorem rafRun_inv (rm : Bool) (evs : List RafEv) : RafInv (rafRun rm evs) :=
  foldl_preserve RafInv rafApply (fun s e h => rafInv_apply s e h) evs (rafInit rm)
    (rafInit_inv rm)

theorem drawSparkles_particlesCanvas (u : RafState) :
    (drawSparkles u).particlesCanvasEmpty = u.particlesCanvasEmpty := by
  simp only [drawSparkles, requestFrame, pushRaf]
  split
  · rfl
  · split <;> rfl

theorem animateWheels_particlesCanvas (u : RafState) :
    (animateWheels u).particlesCanvasEmpty = u.particlesCanvasEmpty := by
  simp only [animateWheels, requestFrame, pushRaf]
  split <;> rfl

theorem particlesLoop_skip (u : RafState) (hr : u.running = false) :
    particlesLoop u = u := by
  unfold particlesLoop
  rw [if_pos (Or.inl hr)]

theorem sparkleObs_false_clears (s : RafState) (h : RafInv s) :
    pendingFor Loop.sparkle (rafApply s (RafEv.sparkleObs false)) = 0
    ∧ (rafApply s (RafEv.sparkleObs false)).sparkleCanvasEmpty = true := by
  obtain ⟨h1, h2, h3, h4, h5, h6, h7⟩ := h
  cases hrid : s.sparkleRafId with
  | none =>
      have hred : rafApply s (RafEv.sparkleObs false) = { s with sparkleActive := false } := by
        simp only [rafApply, hrid, Bool.false_eq_true, if_false]
      rw [hred]
      constructor
      · show (s.pending.filter (fun p => p.2 == Loop.sparkle)).length = 0
        rw [List.filter_eq_nil_iff.mpr ?_]
        · rfl
        · intro p hp hbeq
          have hple : p.2 = Loop.sparkle := by simpa using hbeq
          have := h4 p hp hple
          rw [hrid] at this
          cases this
      · show s.sparkleCanvasEmpty = true
        cases hemp : s.sparkleCanvasEmpty with
        | false => exact absurd hrid (h7 hemp)
        | true => rfl
  | some idr =>
      have hred : rafApply s (RafEv.sparkleObs false) =
          { (cancelFrame idr { s with sparkleActive := false }) with
            sparkleRafId := none, sparkleCanvasEmpty := true } := by
        simp only [rafApply, hrid, Bool.false_eq_true, if_false]
      rw [hred]
      constructor
      · show ((s.pending.filter (fun p => p.1 != idr)).filter
            (fun p => p.2 == Loop.sparkle)).length = 0
        rw [List.filter_eq_nil_iff.mpr ?_]
        · rfl
        · intro p hp hbeq
          have hm := List.mem_filter.mp hp
          have hple : p.2 = Loop.sparkle := by simpa using hbeq
          have heq := h4 p hm.1 hple
          rw [hrid] at heq
          have hpe : p.1 = idr := by
            cases heq
            rfl
          simp [hpe] at hm
      · rfl

theorem fire_not_running (s : RafState) (id : ℕ) (hr : s.running = false) :
    (rafApply s (RafEv.fireFrame id)).particlesCanvasEmpty = s.particlesCanvasEmpty := by
  show (match s.pending.find? (fun p : ℕ × Loop => p.1 == id) with
    | some pl =>
        match pl.2 with
        | Loop.sparkle => drawSparkles (cancelFrame id s)
        | Loop.particles => particlesLoop (cancelFrame id s)
        | Loop.wheels => animateWheels (cancelFrame id s)
    | none => s).particlesCanvasEmpty = s.particlesCanvasEmpty
  cases hfind : s.pending.find? (fun p => p.1 == id) with
  | none => rfl
  | some pl =>
      obtain ⟨pid, pl2⟩ := pl
      cases pl2 with
      | sparkle => exact drawSparkles_particlesCanvas (cancelFrame id s)
      | particles =>
          show (particlesLoop (cancelFrame id s)).particlesCanvasEmpty = _
          rw [particlesLoop_skip (cancelFrame id s) hr]
          rfl
      | wheels => exact animateWheels_particlesCanvas (cancelFrame id s)

/-- C2 counterexample: with the contact-particles canvas visible at load (one
frame pending, canvas drawn on), the observer callback reporting loss of
visibility cancels nothing and clears nothing — the frame request is still
pending and the canvas still holds the last frame — and after that frame
fires as a no-op the canvas is still not cleared for the rest of the
non-visible period. -/
theorem claim_C2_counterexample :
    pendingFor Loop.particles (rafRun false [RafEv.particlesObs false]) = 1
    ∧ (rafRun false [RafEv.particlesObs false]).particlesCanvasEmpty = false
    ∧ (rafRun false
        [RafEv.particlesObs false, RafEv.fireFrame 1]).particlesCanvasEmpty = false
    ∧ pendingFor Loop.particles
        (rafRun false [RafEv.particlesObs false, RafEv.fireFrame 1]) = 0 := by
  decide

/-- C2 (amended): while the sparkle section is not intersecting or reduced
motion is active, the sparkle canvas is empty (so no frame callback draws on
it), and a non-intersecting sparkle observer callback leaves zero pending
sparkle frames and an empty canvas.  The contact-particles loop only gates
its drawing body: firing any frame while `running = false` leaves its canvas
exactly as it was — the loop neither cancels its outstanding request nor
clears its canvas on losing visibility (see the counterexample). -/
theorem claim_C2_visibility_gating (rm : Bool) (evs : List RafEv) (id : ℕ) :
    ((rafRun rm evs).sparkleActive = false → (rafRun rm evs).sparkleCanvasEmpty = true)
    ∧ ((rafRun rm evs).reduceMotion = true → (rafRun rm evs).sparkleCanvasEmpty = true)
    ∧ pendingFor Loop.sparkle (rafApply (rafRun rm evs) (RafEv.sparkleObs false)) = 0
    ∧ (rafApply (rafRun rm evs) (RafEv.sparkleObs false)).sparkleCanvasEmpty = true
    ∧ ((rafRun rm evs).running = false →
        (rafApply (rafRun rm evs) (RafEv.fireFrame id)).particlesCanvasEmpty
          = (rafRun rm evs).particlesCanvasEmpty) := by
  have hinv := rafRun_inv rm evs
  refine ⟨hinv.2.2.2.2.1, hinv.2.2.2.2.2.1, (sparkleObs_false_clears _ hinv).1,
    (sparkleObs_false_clears _ hinv).2, fun hr => fire_not_running _ id hr⟩

theorem claim_C2_visibility_gating_witness :
    ((rafRun false []).sparkleActive = false ∧ (rafRun false []).sparkleCanvasEmpty = true)
    ∧ pendingFor Loop.sparkle (rafApply (rafRun false []) (RafEv.sparkleObs false)) = 0
    ∧ ((rafRun false [RafEv.particlesPagehide]).running = false
       ∧ (rafApply (rafRun false [RafEv.particlesPagehide])
            (RafEv.fireFrame 1)).particlesCanvasEmpty
          = (rafRun false [RafEv.particlesPagehide]).particlesCanvasEmpty) :=
  ⟨⟨by decide, (claim_C2_visibility_gating false [] 1).1 (by decide)⟩,
   (claim_C2_visibility_gating false [] 1).2.2.1,
   ⟨by decide, (claim_C2_visibility_gating false [RafEv.particlesPagehide] 1).2.2.2.2
      (by decide)⟩⟩

theorem filter_fresh {id : ℕ} {l : List (ℕ × Loop)} (pr : ℕ × Loop → Bool)
    (h : id ∉ l.map Prod.fst) : id ∉ (l.filter pr).map Prod.fst := by
  intro hmem
  apply h
  simp only [List.mem_map] at hmem ⊢
  obtain ⟨p, hp, hfst⟩ := hmem
  exact ⟨p, List.mem_of_mem_filter hp, hfst⟩

theorem drawSparkles_fresh (id : ℕ) (s : RafState) (h1 : id < s.nextId)
    (h2 : id ∉ pendingIds s) :
    id < (drawSparkles s).nextId ∧ id ∉ pendingIds (drawSparkles s) := by
  simp only [drawSparkles, requestFrame, pushRaf, pendingIds] at *
  split
  · exact ⟨h1, h2⟩
  · split
    all_goals
      refine ⟨Nat.lt_succ_of_lt h1, ?_⟩
      intro hmem
      have hmem2 : id ∈ s.nextId :: s.pending.map Prod.fst := by simpa using hmem
      rcases List.mem_cons.mp hmem2 with hh | ht
      · omega
      · exact h2 ht

theorem particlesLoop_fresh (id : ℕ) (s : RafState) (h1 : id < s.nextId)
    (h2 : id ∉ pendingIds s) :
    id < (particlesLoop s).nextId ∧ id ∉ pendingIds (particlesLoop s) := by
  simp only [particlesLoop, requestFrame, pushRaf, pendingIds] at *
  split
  · exact ⟨h1, h2⟩
  · split
    all_goals
      refine ⟨Nat.lt_succ_of_lt h1, ?_⟩
      intro hmem
      have hmem2 : id ∈ s.nextId :: s.pending.map Prod.fst := by simpa using hmem
      rcases List.mem_cons.mp hmem2 with hh | ht
      · omega
      · exact h2 ht

theorem animateWheels_fresh (id : ℕ) (s : RafState) (h1 : id < s.nextId)
    (h2 : id ∉ pendingIds s) :
    id < (animateWheels s).nextId ∧ id ∉ pendingIds (animateWheels s) := by
  simp only [animateWheels, requestFrame, pushRaf, pendingIds] at *
  split
  all_goals
    refine ⟨Nat.lt_succ_of_lt h1, ?_⟩
    intro hmem
    have hmem2 : id ∈ s.nextId :: s.pending.map Prod.fst := by simpa using hmem
    rcases List.mem_cons.mp hmem2 with hh | ht
    · omega
    · exact h2 ht

theorem rafApply_fresh (id : ℕ) (s : RafState) (e : RafEv) (h1 : id < s.nextId)
    (h2 : id ∉ pendingIds s) :
    id < (rafApply s e).nextId ∧ id ∉ pendingIds (rafApply s e) := by
  cases e with
  | sparkleObs b =>
      cases b with
      | true =>
          show id < (if s.reduceMotion = false ∧ s.sparkleRafId = none
              then drawSparkles { s with sparkleActive := true }
              else { s with sparkleActive := true }).nextId
            ∧ id ∉ pendingIds (if s.reduceMotion = false ∧ s.sparkleRafId = none
              then drawSparkles { s with sparkleActive := true }
              else { s with sparkleActive := true })
          split
          · exact drawSparkles_fresh id _ h1 h2
          · exact ⟨h1, h2⟩
      | false =>
          show id < (match s.sparkleRafId with
              | some idr => { (cancelFrame idr { s with sparkleActive := false }) with
                    sparkleRafId := none, sparkleCanvasEmpty := true }
              | none => { s with sparkleActive := false }).nextId
            ∧ id ∉ pendingIds (match s.sparkleRafId with
              | some idr => { (cancelFrame idr { s with sparkleActive := false }) with
                    sparkleRafId := none, sparkleCanvasEmpty := true }
              | none => { s with sparkleActive := false })
          cases s.sparkleRafId with
          | none => exact ⟨h1, h2⟩
          | some idr => exact ⟨h1, filter_fresh _ h2⟩
  | particlesObs b =>
      show id < (if b = true ∧ s.reduceMotion = false
          then particlesLoop { s with running := b } else { s with running := b }).nextId
        ∧ id ∉ pendingIds (if b = true ∧ s.reduceMotion = false
          then particlesLoop { s with running := b } else { s with running := b })
      split
      · exact particlesLoop_fresh id _ h1 h2
      · exact ⟨h1, h2⟩
  | wheelsObs b =>
      show id < (if b = true ∧ s.reduceMotion = false then animateWheels s
          else match s.wheelsRafId with
            | some idw => { (cancelFrame idw s) with wheelsRafId := none }
            | none => s).nextId
        ∧ id ∉ pendingIds (if b = true ∧ s.reduceMotion = false then animateWheels s
          else match s.wheelsRafId with
            | some idw => { (cancelFrame idw s) with wheelsRafId := none }
            | none => s)
      split
      · exact animateWheels_fresh id s h1 h2
      · cases s.wheelsRafId with
        | none => exact ⟨h1, h2⟩
        | some idw => exact ⟨h1, filter_fresh _ h2⟩
  | wheelsResize =>
      show id < (animateWheels (match s.wheelsRafId with
          | some idw => { (cancelFrame idw s) with wheelsRafId := none }
          | none => s)).nextId
        ∧ id ∉ pendingIds (animateWheels (match s.wheelsRafId with
          | some idw => { (cancelFrame idw s) with wheelsRafId := none }
          | none => s))
      cases s.wheelsRafId with
      | none => exact animateWheels_fresh id s h1 h2
      | some idw => exact animateWheels_fresh id _ h1 (filter_fresh _ h2)
  | fireFrame idf =>
      show id < (match s.pending.find? (fun p : ℕ × Loop => p.1 == idf) with
          | some pl =>
              match pl.2 with
              | Loop.sparkle => drawSparkles (cancelFrame idf s)
              | Loop.particles => particlesLoop (cancelFrame idf s)
              | Loop.wheels => animateWheels (cancelFrame idf s)
          | none => s).nextId
        ∧ id ∉ pendingIds (match s.pending.find? (fun p : ℕ × Loop => p.1 == idf) with
          | some pl =>
              match pl.2 with
              | Loop.sparkle => drawSparkles (cancelFrame idf s)
              | Loop.particles => particlesLoop (cancelFrame idf s)
              | Loop.wheels => animateWheels (cancelFrame idf s)
          | none => s)
      cases hfind : s.pending.find? (fun p => p.1 == idf) with
      | none => exact ⟨h1, h2⟩
      | some pl =>
          obtain ⟨pid, pl2⟩ := pl
          cases pl2 with
          | sparkle => exact drawSparkles_fresh id _ h1 (filter_fresh _ h2)
          | particles => exact particlesLoop_fresh id _ h1 (filter_fresh _ h2)
          | wheels => exact animateWheels_fresh id _ h1 (filter_fresh _ h2)
  | stopRafs => exact ⟨h1, filter_fresh _ h2⟩
  | particlesPagehide => exact ⟨h1, h2⟩

theorem notPending_run (id : ℕ) :
    ∀ (evs : List RafEv) (s : RafState), id < s.nextId → id ∉ pendingIds s →
      id ∉ pendingIds (evs.foldl rafApply s)
  | [], _, _, h2 => h2
  | e :: evs, s, h1, h2 =>
      notPending_run id evs (rafApply s e) (rafApply_fresh id s e h1 h2).1
        (rafApply_fresh id s e h1 h2).2

/-- C3: `stopRafs()` on teardown drains the process-wide registry: every
pending frame request is registered in `_rafIds` (an invariant of all
reachable states), so after teardown the registry is empty, no frame request
remains pending, and any id that was in the registry at teardown time is
never pending again — no registered animation-frame callback ever fires
after teardown, regardless of each loop's visibility state. -/
theorem claim_C3_teardown_cancels_all (rm : Bool) (evs : List RafEv) :
    (rafApply (rafRun rm evs) RafEv.stopRafs).rafIds = []
    ∧ (rafApply (rafRun rm evs) RafEv.stopRafs).pending = []
    ∧ ∀ id ∈ (rafRun rm evs).rafIds, ∀ evs2 : List RafEv,
        id ∉ pendingIds (evs2.foldl rafApply (rafApply (rafRun rm evs) RafEv.stopRafs)) := by
  obtain ⟨h1, h2, h3, h4, h5, h6, h7⟩ := rafRun_inv rm evs
  have hnil := stopRafs_pending_nil (rafRun rm evs) h2
  refine ⟨rfl, ?_, ?_⟩
  · show (rafRun rm evs).pending.filter
        (fun p => !((rafRun rm evs).rafIds.contains p.1)) = []
    exact hnil
  · intro id hid evs2
    refine notPending_run id evs2 _ (show id < (rafRun rm evs).nextId from h3 id hid) ?_
    show id ∉ ((rafRun rm evs).pending.filter
        (fun p => !((rafRun rm evs).rafIds.contains p.1))).map Prod.fst
    rw [hnil]
    simp

theorem claim_C3_teardown_cancels_all_witness :
    1 ∈ (rafRun false []).rafIds
    ∧ (rafApply (rafRun false []) RafEv.stopRafs).pending = []
    ∧ (rafApply (rafRun false []) RafEv.stopRafs).rafIds = []
    ∧ 1 ∉ pendingIds ([RafEv.particlesObs true].foldl rafApply
        (rafApply (rafRun false []) RafEv.stopRafs)) :=
  ⟨by decide, (claim_C3_teardown_cancels_all false []).2.1,
   (claim_C3_teardown_cancels_all false []).1,
   (claim_C3_teardown_cancels_all false []).2.2 1 (by decide) [RafEv.particlesObs true]⟩

end Portfolio
